import Mathlib

/-!
Verification development for the swxsoc metadata-management layer.

This file gives a shallow embedding, in Lean 4, of the schema-driven
metadata engine of the repository:

* the CDF type-inference ladder of `SWXSchema._types`
  (src/swxsoc/util/schema.py),
* the fill-value table `SWXSchema._fillval_helper` / `_get_fillval`,
* the display-format derivation `SWXSchema._get_format`,
* the required-attribute templates `global_attribute_template` and
  `measurement_attribute_template`,
* the metadata merge policy `SWXData._update_global_attribute` and
  `SWXData._update_measurement_attribute` (src/swxsoc/swxdata.py),
* the CDF persistence conversions `_convert_global_attributes_to_cdf`
  and `_convert_variable_attributes_to_cdf` (src/swxsoc/util/io.py),

together with theorems settling the stated properties of each.
-/

namespace SwxSoc

/-- The CDF data types used by the schema module (members of
`spacepy.pycdf.const` referenced by `schema.py`). -/
inductive CDFType where
  | CDF_BYTE
  | CDF_INT1
  | CDF_UINT1
  | CDF_INT2
  | CDF_UINT2
  | CDF_INT4
  | CDF_UINT4
  | CDF_INT8
  | CDF_FLOAT
  | CDF_REAL4
  | CDF_DOUBLE
  | CDF_REAL8
  | CDF_CHAR
  | CDF_UCHAR
  | CDF_EPOCH
  | CDF_EPOCH16
  | CDF_TIME_TT2000
  deriving DecidableEq, Repr

open CDFType

/-- Whether a CDF type is one of the unsigned integer types. -/
def isUnsigned : CDFType → Bool
  | CDF_UINT1 => true
  | CDF_UINT2 => true
  | CDF_UINT4 => true
  | _ => false

/-- Minimum of a list of integers, mirroring `np.min` on a (nonempty)
integer array; the value on `[]` is junk (the code raises there). -/
def arrMin : List Int → Int
  | [] => 0
  | x :: xs => xs.foldl min x

/-- Maximum of a list of integers, mirroring `np.max` on a (nonempty)
integer array; the value on `[]` is junk (the code raises there). -/
def arrMax : List Int → Int
  | [] => 0
  | x :: xs => xs.foldl max x

/-- The `types`/`cutoffs` ladder of `SWXSchema._types` for integer data
with `minval < 0` (schema.py lines 527-548), zipped into pairs.
The float cutoffs `1.7e38` and `8e307` are the exact integers
`17 * 10^37` and `8 * 10^307`. -/
def ladderNeg : List (CDFType × Int) :=
  [(CDF_BYTE, 2 ^ 7),
   (CDF_INT1, 2 ^ 7),
   (CDF_INT2, 2 ^ 15),
   (CDF_INT4, 2 ^ 31),
   (CDF_INT8, 2 ^ 63),
   (CDF_FLOAT, 17 * 10 ^ 37),
   (CDF_REAL4, 17 * 10 ^ 37),
   (CDF_DOUBLE, 8 * 10 ^ 307),
   (CDF_REAL8, 8 * 10 ^ 307)]

/-- The `types`/`cutoffs` ladder of `SWXSchema._types` for integer data
with `minval >= 0` (schema.py lines 549-577), zipped into pairs. -/
def ladderNonneg : List (CDFType × Int) :=
  [(CDF_BYTE, 2 ^ 7),
   (CDF_INT1, 2 ^ 7),
   (CDF_UINT1, 2 ^ 8),
   (CDF_INT2, 2 ^ 15),
   (CDF_UINT2, 2 ^ 16),
   (CDF_INT4, 2 ^ 31),
   (CDF_UINT4, 2 ^ 32),
   (CDF_INT8, 2 ^ 63),
   (CDF_FLOAT, 17 * 10 ^ 37),
   (CDF_REAL4, 17 * 10 ^ 37),
   (CDF_DOUBLE, 8 * 10 ^ 307),
   (CDF_REAL8, 8 * 10 ^ 307)]

/-- The filter condition of `SWXSchema._types` on a (type, cutoff) pair:
`c > maxval and (minval >= 0 or minval >= -c)`. -/
def keepType (minval maxval c : Int) : Bool :=
  decide (maxval < c) && (decide (0 ≤ minval) || decide (-c ≤ minval))

/-- The list comprehension
`[t for (t, c) in zip(types, cutoffs) if c > maxval and (minval >= 0 or minval >= -c)]`
of `SWXSchema._types` (schema.py lines 578-582). -/
def filterLadder (minval maxval : Int) (ladder : List (CDFType × Int)) :
    List CDFType :=
  (ladder.filter fun tc => keepType minval maxval tc.2).map Prod.fst

/-- The integer branch of `SWXSchema._types`: pick the ladder by the sign
of `minval`, then filter by range coverage of `[minval, maxval]`. -/
def intTypes (minval maxval : Int) : List CDFType :=
  if minval < 0 then filterLadder minval maxval ladderNeg
  else filterLadder minval maxval ladderNonneg

/-- Maximum of a list of rationals, mirroring `np.max`; junk on `[]`. -/
def listMax : List ℚ → ℚ
  | [] => 0
  | x :: xs => xs.foldl max x

/-- Minimum of a list of rationals, mirroring `np.min`; junk on `[]`. -/
def listMin : List ℚ → ℚ
  | [] => 0
  | x :: xs => xs.foldl min x

/-- The single-precision window bound `1.7e38` of `SWXSchema._types`,
as an exact rational. -/
def bigFloatCutoff : ℚ := 17 * 10 ^ 37

/-- The single-precision window bound `3e-39` of `SWXSchema._types`,
as an exact rational. -/
def smallFloatCutoff : ℚ := 3 / 10 ^ 39

/-- The intermediate `absolutes = np.abs(d[d != 0])` of
`SWXSchema._types`: absolute values of the nonzero elements. -/
def absNonzero (d : List ℚ) : List ℚ :=
  (d.filter fun x => decide (x ≠ 0)).map (fun x => |x|)

/-- The floating-point branch of `SWXSchema._types`
(schema.py lines 595-606): take absolute values of the nonzero
elements; if any lies strictly outside `[3e-39, 1.7e38]`, only the
double-precision types remain, else single precision is offered first. -/
def floatTypes (d : List ℚ) : List CDFType :=
  if 0 < (absNonzero d).length ∧
      (bigFloatCutoff < listMax (absNonzero d) ∨
        listMin (absNonzero d) < smallFloatCutoff)
  then [CDF_DOUBLE, CDF_REAL8]
  else [CDF_FLOAT, CDF_REAL4, CDF_DOUBLE, CDF_REAL8]

/-- Raw input array kinds distinguished by `SWXSchema._types`:
integer-kind data, float-kind data, string data (producing the character
types, with the longest encoded element length), and `astropy.time.Time`
data (producing the epoch types). -/
inductive ArrayData where
  | ints (d : List Int)
  | floats (d : List ℚ)
  | strs (maxElem : Nat)
  | times
  deriving DecidableEq, Repr

/-- The candidate type list `SWXSchema._types` computes from the data
itself, before any prior-type handling (schema.py lines 475-606). -/
def rawCandidates : ArrayData → List CDFType
  | .ints d => intTypes (arrMin d) (arrMax d)
  | .floats d => floatTypes d
  | .strs _ => [CDF_CHAR, CDF_UCHAR]
  | .times => [CDF_TIME_TT2000, CDF_EPOCH16, CDF_EPOCH]

/-- The prior-type handling of `SWXSchema._types`
(schema.py lines 608-624): if the data carries a `type()` tag that is in
the computed candidate list, collapse to that single type; otherwise, if
the input is itself an array (`d is data`), the tag still wins (the
`finally` clause); otherwise keep the computed candidates. -/
def applyPrior (isArray : Bool) (types : List CDFType)
    (prior : Option CDFType) : List CDFType :=
  match prior with
  | none => types
  | some t => if t ∈ types then [t] else if isArray then [t] else types

/-- Candidate types returned by `SWXSchema._types` for data `a`,
carrying flag `isArray` (whether the raw input was already an ndarray)
and optional prior type tag `prior`. -/
def inferCandidates (a : ArrayData) (isArray : Bool)
    (prior : Option CDFType) : List CDFType :=
  applyPrior isArray (rawCandidates a) prior

/-- The exact largest finite value of an IEEE-754 single-precision
float, `(2 - 2^-23) * 2^127`, as an integer. -/
def floatMax32 : Int := (2 ^ 24 - 1) * 2 ^ 104

/-- The exact largest finite value of an IEEE-754 double-precision
float, `(2 - 2^-52) * 2^1023`, as an integer. -/
def floatMax64 : Int := (2 ^ 53 - 1) * 2 ^ 971

/-- Whether a CDF type's representable value range contains the interval
`[minval, maxval]`. This is the specification's notion of a candidate
type "covering" the data range; non-numeric types cover nothing. -/
def coversRangeB (t : CDFType) (minval maxval : Int) : Bool :=
  match t with
  | CDF_BYTE => decide (-(2 ^ 7) ≤ minval ∧ maxval ≤ 2 ^ 7 - 1)
  | CDF_INT1 => decide (-(2 ^ 7) ≤ minval ∧ maxval ≤ 2 ^ 7 - 1)
  | CDF_INT2 => decide (-(2 ^ 15) ≤ minval ∧ maxval ≤ 2 ^ 15 - 1)
  | CDF_INT4 => decide (-(2 ^ 31) ≤ minval ∧ maxval ≤ 2 ^ 31 - 1)
  | CDF_INT8 => decide (-(2 ^ 63) ≤ minval ∧ maxval ≤ 2 ^ 63 - 1)
  | CDF_UINT1 => decide (0 ≤ minval ∧ maxval ≤ 2 ^ 8 - 1)
  | CDF_UINT2 => decide (0 ≤ minval ∧ maxval ≤ 2 ^ 16 - 1)
  | CDF_UINT4 => decide (0 ≤ minval ∧ maxval ≤ 2 ^ 32 - 1)
  | CDF_FLOAT => decide (-floatMax32 ≤ minval ∧ maxval ≤ floatMax32)
  | CDF_REAL4 => decide (-floatMax32 ≤ minval ∧ maxval ≤ floatMax32)
  | CDF_DOUBLE => decide (-floatMax64 ≤ minval ∧ maxval ≤ floatMax64)
  | CDF_REAL8 => decide (-floatMax64 ≤ minval ∧ maxval ≤ floatMax64)
  | _ => false

/-- The fixed candidate ladder named by the specification for integer
data containing negative values: no unsigned types appear. -/
def specLadderNeg : List CDFType :=
  [CDF_BYTE, CDF_INT1, CDF_INT2, CDF_INT4, CDF_INT8,
   CDF_FLOAT, CDF_REAL4, CDF_DOUBLE, CDF_REAL8]

/-- The fixed candidate ladder named by the specification for
nonnegative integer data: signed and unsigned types interleaved by
width, then the floating types. -/
def specLadderNonneg : List CDFType :=
  [CDF_BYTE, CDF_INT1, CDF_UINT1, CDF_INT2, CDF_UINT2,
   CDF_INT4, CDF_UINT4, CDF_INT8,
   CDF_FLOAT, CDF_REAL4, CDF_DOUBLE, CDF_REAL8]

/-- Fill values produced by `SWXSchema._get_fillval`: integer extremes,
the `-1e31` floating sentinel, a pair of sentinels (`CDF_EPOCH16`),
a literal string, or a far-future `astropy.time.Time` (modelled by its
ISO string). -/
inductive FillVal where
  | int (n : Int)
  | real (q : ℚ)
  | pair (a b : ℚ)
  | str (s : String)
  | time (s : String)
  deriving DecidableEq, Repr

/-- The first half of the `fillvals` dict of `SWXSchema._fillval_helper`
(schema.py lines 868-880): signed extreme negatives, unsigned all-ones
maxima, the `-1e31` sentinels and the single-space character fills. -/
def baseFillvals : List (CDFType × FillVal) :=
  [(CDF_INT1, .int (-(2 ^ 7))),
   (CDF_UINT1, .int (2 ^ 8 - 1)),
   (CDF_INT2, .int (-(2 ^ 15))),
   (CDF_UINT2, .int (2 ^ 16 - 1)),
   (CDF_INT4, .int (-(2 ^ 31))),
   (CDF_UINT4, .int (2 ^ 32 - 1)),
   (CDF_INT8, .int (-(2 ^ 63))),
   (CDF_EPOCH16, .pair (-(10 ^ 31)) (-(10 ^ 31))),
   (CDF_REAL8, .real (-(10 ^ 31))),
   (CDF_REAL4, .real (-(10 ^ 31))),
   (CDF_CHAR, .str " "),
   (CDF_UCHAR, .str " ")]

/-- The `Equivalent pairs` loop of `SWXSchema._fillval_helper`
(schema.py lines 881-888): each left type receives the fill value
already assigned to its right equivalent. -/
def equivFillPairs : List (CDFType × CDFType) :=
  [(CDF_TIME_TT2000, CDF_INT8),
   (CDF_EPOCH, CDF_REAL8),
   (CDF_BYTE, CDF_INT1),
   (CDF_FLOAT, CDF_REAL4),
   (CDF_DOUBLE, CDF_REAL8)]

/-- The full fill-value table built by `SWXSchema._fillval_helper`. -/
def fillvalsTable : List (CDFType × FillVal) :=
  baseFillvals ++
    equivFillPairs.filterMap fun p =>
      (baseFillvals.lookup p.2).map fun v => (p.1, v)

/-- `SWXSchema._fillval_helper`: look up the fill value of a CDF type
(`none` models a `KeyError`, which cannot occur: all types are keys). -/
def fillval_helper (cdf_type : CDFType) : Option FillVal :=
  fillvalsTable.lookup cdf_type

/-- `SWXSchema._get_fillval`: `CDF_TIME_TT2000` gets the far-future
time sentinel; every other type defers to `_fillval_helper`
(schema.py lines 857-865). -/
def get_fillval (guess_type : CDFType) : Option FillVal :=
  if guess_type = CDF_TIME_TT2000 then
    some (.time "9999-12-31T23:59:59.999999")
  else fillval_helper guess_type

/-- The eight integer CDF types handled by the first branch of
`SWXSchema._get_format`. -/
def intFormatTypes : List CDFType :=
  [CDF_INT1, CDF_INT2, CDF_INT4, CDF_INT8,
   CDF_UINT1, CDF_UINT2, CDF_UINT4, CDF_BYTE]

/-- Default minimum used by `SWXSchema._get_format` when `VALIDMIN`
is absent: 0 for unsigned types, the extreme negative value for
`CDF_BYTE` and the signed types. Junk 0 for non-integer types, which
never reach this computation. -/
def formatDefaultMin : CDFType → Int
  | CDF_UINT1 => 0
  | CDF_UINT2 => 0
  | CDF_UINT4 => 0
  | CDF_BYTE => -(2 ^ 7)
  | CDF_INT1 => -(2 ^ 7)
  | CDF_INT2 => -(2 ^ 15)
  | CDF_INT4 => -(2 ^ 31)
  | CDF_INT8 => -(2 ^ 63)
  | _ => 0

/-- Default maximum used by `SWXSchema._get_format` when `VALIDMAX`
is absent: `2^7 - 1` for `CDF_BYTE`, `2^(8i) - 1` for unsigned types of
`i` bytes, `2^(8i-1) - 1` for signed. Junk 0 for non-integer types. -/
def formatDefaultMax : CDFType → Int
  | CDF_BYTE => 2 ^ 7 - 1
  | CDF_UINT1 => 2 ^ 8 - 1
  | CDF_UINT2 => 2 ^ 16 - 1
  | CDF_UINT4 => 2 ^ 32 - 1
  | CDF_INT1 => 2 ^ 7 - 1
  | CDF_INT2 => 2 ^ 15 - 1
  | CDF_INT4 => 2 ^ 31 - 1
  | CDF_INT8 => 2 ^ 63 - 1
  | _ => 0

/-- The effective minimum bound of `SWXSchema._get_format` for an
integer type: `VALIDMIN` from the variable metadata if present, else
the type default. -/
def formatMinval (cdftype : CDFType) (validmin : Option Int) : Int :=
  match validmin with
  | some v => v
  | none => formatDefaultMin cdftype

/-- The effective maximum bound of `SWXSchema._get_format` for an
integer type: `VALIDMAX` from the variable metadata if present, else
the type default. -/
def formatMaxval (cdftype : CDFType) (validmax : Option Int) : Int :=
  match validmax with
  | some v => v
  | none => formatDefaultMax cdftype

/-- Model of the Python expression `int(math.log10(n))` for `n >= 1`,
as the exact floor `Nat.log 10 n`. The source evaluates `math.log10`
in IEEE-754 double precision: for `1 <= n <= 10^15 - 3` the
correctly-rounded double of `log10 n` lies strictly below the next
integer (the distance of `log10 n` below its ceiling exceeds half an
ulp of the result), so the truncated double equals this exact floor.
From `10^15 - 2` upward the model is NOT faithful: integers just below
a power of ten round up (`math.log10(10^15 - 1)` evaluates to exactly
`15.0`, and above `2^53` the int-to-double conversion itself rounds),
so the source yields one more digit than this model there. Theorems
about the integer FORMAT width therefore carry a `<= 10^15 - 3` bound
on the magnitudes fed to this function. -/
def pyIntLog10 (n : Nat) : Nat := Nat.log 10 n

/-- The `FORMAT` derivation `SWXSchema._get_format`
(schema.py lines 892-1026), with metadata bounds restricted to
integers. `var_data` supplies the string whose length the character
branch reads; `Except.error` models a raised exception (the float
branch of the code can raise no error, but `math.log10` of a negative
effective maximum would). The integer-width branch models the
double-precision `int(math.log10(...))` of the source by
`pyIntLog10`, which is faithful only for arguments up to
`10^15 - 3`; see its documentation. -/
def get_format (cdftype : CDFType) (validmin validmax : Option Int)
    (var_data : String) : Except String String :=
  if cdftype ∈ intFormatTypes then
    let minval := formatMinval cdftype validmin
    let maxval := formatMaxval cdftype validmax
    if minval < 0 then
      .ok ("I" ++ toString
        (pyIntLog10 (max (max maxval.natAbs minval.natAbs) 1) + 2))
    else
      if maxval = 0 then .ok ("I" ++ toString (1 + 1))
      else if maxval < 0 then .error "math domain error"
      else .ok ("I" ++ toString (pyIntLog10 maxval.toNat + 1))
  else if cdftype = CDF_TIME_TT2000 then
    .ok ("A" ++ toString ("9999-12-31T23:59:59.999999999".length))
  else if cdftype = CDF_EPOCH16 then
    .ok ("A" ++ toString ("31-Dec-9999 23:59:59.999.999.000.000".length))
  else if cdftype = CDF_EPOCH then
    .ok ("A" ++ toString ("31-Dec-9999 23:59:59.999".length))
  else if cdftype ∈ [CDF_REAL8, CDF_REAL4, CDF_FLOAT, CDF_DOUBLE] then
    match validmin, validmax with
    | some mn, some mx =>
      let range : Int := mx - mn
      let ln : String :=
        if (toString mx).length ≥ (toString mn).length then toString mx
        else toString mn
      if range ≠ 0 ∧ range < 0 then .ok "G10.8E3"
      else if range ≠ 0 ∧ range ≤ 11 then
        .ok ("F" ++ toString (ln.length + 4) ++ ".3")
      else if range ≠ 0 ∧ 11 < range ∧ range ≤ 101 then
        .ok ("F" ++ toString (ln.length + 3) ++ ".2")
      else if range ≠ 0 ∧ 101 < range ∧ range ≤ 1000 then
        .ok ("F" ++ toString (ln.length + 2) ++ ".1")
      else .ok "G10.8E3"
    | _, _ => .ok "G10.8E3"
  else if cdftype = CDF_CHAR ∨ cdftype = CDF_UCHAR then
    .ok ("A" ++ toString var_data.length)
  else .error "Could not find FORMAT for type"

/-- A schema rule entry as consulted by the attribute templates:
`required` and `derived` flags of one attribute. -/
structure AttrRule where
  required : Bool
  derived : Bool
  deriving DecidableEq, Repr

/-- `SWXSchema.global_attribute_template` (schema.py lines 229-247):
the ordered mapping of every global attribute that is required, not
derived, and not among the default global attributes, each mapped to
`None`. The schema is the ordered rule table, `defaults` the names of
the default global attributes. -/
def global_attribute_template (schema : List (String × AttrRule))
    (defaults : List String) : List (String × Option String) :=
  (schema.filter fun p =>
    p.2.required && !p.2.derived && !(decide (p.1 ∈ defaults))).map
    fun p => (p.1, none)

/-- `SWXSchema.measurement_attribute_template`
(schema.py lines 249-265): the ordered mapping of every variable
attribute that is required and not derived, each mapped to `None`. -/
def measurement_attribute_template (schema : List (String × AttrRule)) :
    List (String × Option String) :=
  (schema.filter fun p => p.2.required && !p.2.derived).map
    fun p => (p.1, none)

/-- A schema rule as consulted by the update/merge policy: the
`overwrite` entry of the rule dict, `none` when the key is absent. -/
structure MergeRule where
  overwrite : Option Bool
  deriving DecidableEq, Repr

/-- A metadata mapping: attribute name to `(value, comment)` pair,
where the value may be the Python `None`. `none` at the outer level
means the attribute is absent from the mapping. -/
def MetaMap (V : Type) : Type :=
  String → Option (Option V × Option String)

/-- Pointwise insertion into a metadata mapping
(`meta[attr_name] = (attr_value, attr_comment)`). -/
def metaSet {V : Type} (meta : MetaMap V) (name : String)
    (value : Option V) (comment : Option String) : MetaMap V :=
  fun k => if k = name then some (value, comment) else meta k

/-- `SWXData._update_global_attribute` (swxdata.py lines 501-540):
if the attribute is present with a non-`None` value and is known to the
schema, overwrite only when the new value differs, the rule has an
`overwrite` key, and that key is true; in every other case set the
attribute unconditionally. -/
def update_global_attribute {V : Type} [DecidableEq V]
    (schema : String → Option MergeRule) (meta : MetaMap V)
    (attr_name : String) (attr_value : Option V)
    (attr_comment : Option String) : MetaMap V :=
  match meta attr_name, schema attr_name with
  | some (some current, _), some rule =>
      if (some current : Option V) ≠ attr_value ∧ rule.overwrite = some true
      then metaSet meta attr_name attr_value attr_comment
      else meta
  | _, _ => metaSet meta attr_name attr_value attr_comment

/-- `SWXData._update_measurement_attribute` (swxdata.py lines 543-587):
the same policy as the global update, applied to the named variable's
metadata inside `data_structure`, consulting the variable rule table. -/
def update_measurement_attribute {V : Type} [DecidableEq V]
    (schemaVar : String → Option MergeRule)
    (data_structure : String → MetaMap V) (var_name : String)
    (attr_name : String) (attr_value : Option V)
    (attr_comment : Option String) : String → MetaMap V :=
  fun v =>
    if v = var_name then
      match data_structure var_name attr_name, schemaVar attr_name with
      | some (some current, _), some rule =>
          if (some current : Option V) ≠ attr_value ∧
              rule.overwrite = some true
          then metaSet (data_structure var_name) attr_name attr_value
            attr_comment
          else data_structure var_name
      | _, _ =>
          metaSet (data_structure var_name) attr_name attr_value attr_comment
    else data_structure v

/-- An attribute value as stored in a meta mapping at persistence time:
either an `astropy.time.Time` (modelled by its ISO string) or a plain
value. -/
inductive PyVal (V : Type) where
  | timeVal (t : String)
  | plain (v : V)
  deriving DecidableEq, Repr

/-- The content stored under one attribute name in a meta mapping:
either a `(value, comment)` 2-tuple (where the value may be `None`), or
anything else (`malformed`). -/
inductive AttrContent (V : Type) where
  | tuple2 (value : Option (PyVal V)) (comment : Option String)
  | malformed
  deriving DecidableEq, Repr

/-- What the CDF persistence path writes for one attribute: an empty
string (substituted for `None` global values), a converted datetime, or
the value itself. -/
inductive CDFWritten (V : Type) where
  | str (s : String)
  | datetime (t : String)
  | val (p : PyVal V)
  deriving DecidableEq, Repr

/-- `CDFHandler._convert_global_attributes_to_cdf`
(io.py lines 365-384): malformed content raises a `ValueError`; a
`None` value is written as the empty string; any other value is written
as-is. The result is the sequence of written global attributes. -/
def convert_global_attributes_to_cdf {V : Type} :
    List (String × AttrContent V) →
    Except String (List (String × CDFWritten V))
  | [] => .ok []
  | (name, .malformed) :: _ =>
      .error ("Cannot Add gAttr: " ++ name ++
        ". Content must be a tuple of (value, comment)")
  | (name, .tuple2 none _) :: rest =>
      (convert_global_attributes_to_cdf rest).map
        fun out => (name, .str "") :: out
  | (name, .tuple2 (some v) _) :: rest =>
      (convert_global_attributes_to_cdf rest).map
        fun out => (name, .val v) :: out

/-- `CDFHandler._convert_variable_attributes_to_cdf`
(io.py lines 425-448): malformed content raises a `ValueError`; a
`None` value raises a `ValueError`; an `astropy.time.Time` value is
converted to a datetime; any other value is written as-is. -/
def convert_variable_attributes_to_cdf {V : Type} (var_name : String) :
    List (String × AttrContent V) →
    Except String (List (String × CDFWritten V))
  | [] => .ok []
  | (n, .malformed) :: _ =>
      .error ("Variable " ++ var_name ++ ": Cannot Add vAttr: " ++ n ++
        ". Content must be a tuple of (value, comment)")
  | (n, .tuple2 none _) :: _ =>
      .error ("Variable " ++ var_name ++ ": Cannot Add vAttr: " ++ n ++
        ". Value was None")
  | (n, .tuple2 (some (.timeVal t)) _) :: rest =>
      (convert_variable_attributes_to_cdf var_name rest).map
        fun out => (n, .datetime t) :: out
  | (n, .tuple2 (some (.plain v)) _) :: rest =>
      (convert_variable_attributes_to_cdf var_name rest).map
        fun out => (n, .val (.plain v)) :: out

/-- The integer width the specification's formula assigns:
`floor(log10(max(|min|, |max|, 1)))` plus one, plus one more when
negative values are possible. -/
def claimedIntWidth (minval maxval : Int) : Nat :=
  Nat.log 10 (max (max minval.natAbs maxval.natAbs) 1) +
    (if minval < 0 then 2 else 1)

theorem foldl_max_mem {α : Type} [LinearOrder α] :
    ∀ (xs : List α) (a : α), xs.foldl max a ∈ a :: xs := by
  intro xs
  induction xs with
  | nil => intro a; simp
  | cons x xs ih =>
      intro a
      show xs.foldl max (max a x) ∈ a :: x :: xs
      rcases List.mem_cons.mp (ih (max a x)) with h | h
      · rw [h]
        rcases max_choice a x with hm | hm <;> rw [hm]
        · exact List.mem_cons_self a _
        · exact List.mem_cons_of_mem _ (List.mem_cons_self x _)
      · exact List.mem_cons_of_mem _ (List.mem_cons_of_mem _ h)

theorem le_foldl_max {α : Type} [LinearOrder α] :
    ∀ (xs : List α) (a : α) (y : α), y ∈ a :: xs → y ≤ xs.foldl max a := by
  intro xs
  induction xs with
  | nil => intro a y hy; simp at hy; simp [hy]
  | cons x xs ih =>
      intro a y hy
      show y ≤ xs.foldl max (max a x)
      have hstep : max a x ≤ xs.foldl max (max a x) :=
        ih (max a x) _ (List.mem_cons_self _ _)
      rcases List.mem_cons.mp hy with rfl | h
      · exact le_trans (le_max_left y x) hstep
      · rcases List.mem_cons.mp h with rfl | h2
        · exact le_trans (le_max_right a y) hstep
        · exact ih (max a x) y (List.mem_cons_of_mem _ h2)

theorem foldl_min_mem {α : Type} [LinearOrder α] :
    ∀ (xs : List α) (a : α), xs.foldl min a ∈ a :: xs := by
  intro xs
  induction xs with
  | nil => intro a; simp
  | cons x xs ih =>
      intro a
      show xs.foldl min (min a x) ∈ a :: x :: xs
      rcases List.mem_cons.mp (ih (min a x)) with h | h
      · rw [h]
        rcases min_choice a x with hm | hm <;> rw [hm]
        · exact List.mem_cons_self a _
        · exact List.mem_cons_of_mem _ (List.mem_cons_self x _)
      · exact List.mem_cons_of_mem _ (List.mem_cons_of_mem _ h)

theorem foldl_min_le {α : Type} [LinearOrder α] :
    ∀ (xs : List α) (a : α) (y : α), y ∈ a :: xs → xs.foldl min a ≤ y := by
  intro xs
  induction xs with
  | nil => intro a y hy; simp at hy; simp [hy]
  | cons x xs ih =>
      intro a y hy
      show xs.foldl min (min a x) ≤ y
      have hstep : xs.foldl min (min a x) ≤ min a x :=
        ih (min a x) _ (List.mem_cons_self _ _)
      rcases List.mem_cons.mp hy with rfl | h
      · exact le_trans hstep (min_le_left y x)
      · rcases List.mem_cons.mp h with rfl | h2
        · exact le_trans hstep (min_le_right a y)
        · exact ih (min a x) y (List.mem_cons_of_mem _ h2)

theorem sublist_indexOf_lt {α : Type} [DecidableEq α] :
    ∀ {l L : List α}, l.Sublist L → L.Nodup → ∀ {a b : α}, a ∈ l → b ∈ l →
      L.indexOf a < L.indexOf b → l.indexOf a < l.indexOf b := by
  intro l L hs
  induction hs with
  | slnil => intro _ a b ha; exact absurd ha (List.not_mem_nil a)
  | cons x hs ih =>
      intro hN a b ha hb hidx
      have hxL : x ∉ _ := (List.nodup_cons.mp hN).1
      have haL := hs.mem ha
      have hbL := hs.mem hb
      have hxa : x ≠ a := fun h => hxL (h ▸ haL)
      have hxb : x ≠ b := fun h => hxL (h ▸ hbL)
      rw [List.indexOf_cons_ne _ hxa, List.indexOf_cons_ne _ hxb] at hidx
      exact ih (List.nodup_cons.mp hN).2 ha hb (Nat.succ_lt_succ_iff.mp hidx)
  | cons₂ x hs ih =>
      intro hN a b ha hb hidx
      by_cases hxb : x = b
      · subst hxb
        rw [List.indexOf_cons_self] at hidx
        exact absurd hidx (Nat.not_lt_zero _)
      · by_cases hxa : x = a
        · subst hxa
          rw [List.indexOf_cons_self]
          rw [List.indexOf_cons_ne _ hxb]
          exact Nat.succ_pos _
        · have ha2 : a ∈ _ :=
            (List.mem_cons.mp ha).resolve_left (fun h => hxa h.symm)
          have hb2 : b ∈ _ :=
            (List.mem_cons.mp hb).resolve_left (fun h => hxb h.symm)
          rw [List.indexOf_cons_ne _ hxa, List.indexOf_cons_ne _ hxb]
            at hidx ⊢
          exact Nat.succ_lt_succ
            (ih (List.nodup_cons.mp hN).2 ha2 hb2 (Nat.succ_lt_succ_iff.mp hidx))

/-- C6: the derived fill value is the extreme negative value for signed
integer types, the all-ones maximum for unsigned integer types, the
`-1e31` sentinel for the floating types (including `CDF_EPOCH`), a
single space for the character types, and the far-future date sentinel
for `CDF_TIME_TT2000`; aliased numeric pairs such as
`CDF_BYTE`/`CDF_INT1` and `CDF_FLOAT`/`CDF_REAL4` share identical fill
values. -/
theorem fillval_table_values :
    get_fillval CDF_INT1 = some (.int (-(2 ^ 7))) ∧
    get_fillval CDF_INT2 = some (.int (-(2 ^ 15))) ∧
    get_fillval CDF_INT4 = some (.int (-(2 ^ 31))) ∧
    get_fillval CDF_INT8 = some (.int (-(2 ^ 63))) ∧
    get_fillval CDF_UINT1 = some (.int (2 ^ 8 - 1)) ∧
    get_fillval CDF_UINT2 = some (.int (2 ^ 16 - 1)) ∧
    get_fillval CDF_UINT4 = some (.int (2 ^ 32 - 1)) ∧
    get_fillval CDF_FLOAT = some (.real (-(10 ^ 31))) ∧
    get_fillval CDF_REAL4 = some (.real (-(10 ^ 31))) ∧
    get_fillval CDF_DOUBLE = some (.real (-(10 ^ 31))) ∧
    get_fillval CDF_REAL8 = some (.real (-(10 ^ 31))) ∧
    get_fillval CDF_EPOCH = some (.real (-(10 ^ 31))) ∧
    get_fillval CDF_CHAR = some (.str " ") ∧
    get_fillval CDF_UCHAR = some (.str " ") ∧
    get_fillval CDF_TIME_TT2000 =
      some (.time "9999-12-31T23:59:59.999999") ∧
    get_fillval CDF_BYTE = get_fillval CDF_INT1 ∧
    get_fillval CDF_FLOAT = get_fillval CDF_REAL4 ∧
    get_fillval CDF_DOUBLE = get_fillval CDF_REAL8 := by
  decide

/-- C7: for an attribute present with a non-`None` value whose schema
rule carries `overwrite = false`, neither a global-attribute update nor
a measurement-attribute update with a different new value changes
anything: the metadata is returned untouched. -/
theorem no_overwrite_keeps_first_value {V : Type} [DecidableEq V]
    (schema : String → Option MergeRule) (rule : MergeRule) (name : String)
    (v : V) (c : Option String) (newv : Option V) (newc : Option String)
    (hrule : schema name = some rule) (how : rule.overwrite = some false) :
    (∀ meta : MetaMap V, meta name = some (some v, c) → some v ≠ newv →
      update_global_attribute schema meta name newv newc = meta) ∧
    (∀ (data_structure : String → MetaMap V) (var_name : String),
      data_structure var_name name = some (some v, c) → some v ≠ newv →
      update_measurement_attribute schema data_structure var_name name
        newv newc = data_structure) := by
  have hcond : ¬((some v : Option V) ≠ newv ∧ rule.overwrite = some true) := by
    rintro ⟨-, h2⟩
    rw [how] at h2
    exact Bool.false_ne_true (Option.some_injective _ h2)
  constructor
  · intro meta hmeta _
    unfold update_global_attribute
    rw [hmeta, hrule]
    simp only [if_neg hcond]
  · intro ds var_name hmeta _
    funext w
    unfold update_measurement_attribute
    by_cases hw : w = var_name
    · rw [if_pos hw, hw]
      rw [hmeta, hrule]
      simp only [if_neg hcond]
    · rw [if_neg hw]

/-- C10: an attribute that is present with a non-`None` value but does
not appear in the consulted schema rule table is replaced
unconditionally, value and comment both, by either update function. -/
theorem unknown_attribute_always_overwritten {V : Type} [DecidableEq V]
    (schema : String → Option MergeRule) (name : String)
    (v : V) (c : Option String) (newv : Option V) (newc : Option String)
    (hrule : schema name = none) :
    (∀ meta : MetaMap V, meta name = some (some v, c) →
      update_global_attribute schema meta name newv newc name =
        some (newv, newc)) ∧
    (∀ (data_structure : String → MetaMap V) (var_name : String),
      data_structure var_name name = some (some v, c) →
      update_measurement_attribute schema data_structure var_name name
        newv newc var_name name = some (newv, newc)) := by
  constructor
  · intro meta hmeta
    unfold update_global_attribute
    rw [hmeta, hrule]
    simp [metaSet]
  · intro ds var_name hmeta
    unfold update_measurement_attribute
    rw [if_pos rfl, hmeta, hrule]
    simp [metaSet]

/-- C1 counterexample: persisting a global attribute whose value is
`None` does not raise; the attribute is written as the empty string. -/
theorem global_none_attribute_not_raised_cex :
    convert_global_attributes_to_cdf
        [("Mission_group", AttrContent.tuple2 (V := Nat) none none)] =
      Except.ok [("Mission_group", CDFWritten.str "")] ∧
    ∀ e, convert_global_attributes_to_cdf
        [("Mission_group", AttrContent.tuple2 (V := Nat) none none)] ≠
      Except.error e := by
  have hok : convert_global_attributes_to_cdf
      [("Mission_group", AttrContent.tuple2 (V := Nat) none none)] =
      Except.ok [("Mission_group", CDFWritten.str "")] := rfl
  refine ⟨hok, fun e h => ?_⟩
  rw [hok] at h
  exact Except.noConfusion h

/-- C1 amended: the CDF persistence path never raises on a global
attribute whose value is `None` — it writes the empty string and
continues (raising only on structurally malformed content); the
raise-on-`None` behaviour belongs to the variable-attribute path, which
errors out on the first `None`-valued attribute. -/
theorem global_none_written_as_empty_string {V : Type} :
    (∀ (name : String) (c : Option String)
        (rest : List (String × AttrContent V)),
      convert_global_attributes_to_cdf ((name, .tuple2 none c) :: rest) =
        (convert_global_attributes_to_cdf rest).map
          (fun out => (name, CDFWritten.str "") :: out)) ∧
    (∀ meta : List (String × AttrContent V),
      (∀ p ∈ meta, p.2 ≠ AttrContent.malformed) →
      ∃ out, convert_global_attributes_to_cdf meta = Except.ok out ∧
        ∀ (n : String) (c : Option String),
          (n, AttrContent.tuple2 none c) ∈ meta →
          (n, CDFWritten.str "") ∈ out) ∧
    (∀ (vn n : String) (c : Option String)
        (rest : List (String × AttrContent V)),
      convert_variable_attributes_to_cdf vn ((n, .tuple2 none c) :: rest) =
        Except.error ("Variable " ++ vn ++ ": Cannot Add vAttr: " ++ n ++
          ". Value was None")) := by
  refine ⟨fun name c rest => rfl, ?_, fun vn n c rest => rfl⟩
  intro meta hok
  induction meta with
  | nil => exact ⟨[], rfl, fun n c h => absurd h (List.not_mem_nil _)⟩
  | cons p rest ih =>
      obtain ⟨out, hout, hmem⟩ := ih fun q hq => hok q (List.mem_cons_of_mem _ hq)
      obtain ⟨pn, pc⟩ := p
      match pc with
      | AttrContent.malformed =>
          exact absurd rfl (hok (pn, AttrContent.malformed) (List.mem_cons_self _ _))
      | AttrContent.tuple2 none c =>
          refine ⟨(pn, CDFWritten.str "") :: out, ?_, ?_⟩
          · show (convert_global_attributes_to_cdf rest).map _ = _
            rw [hout]
            rfl
          · intro n c2 hn
            rcases List.mem_cons.mp hn with h | h
            · injection h with h1 h2
              rw [h1]
              exact List.mem_cons_self _ _
            · exact List.mem_cons_of_mem _ (hmem n c2 h)
      | AttrContent.tuple2 (some v) c =>
          refine ⟨(pn, CDFWritten.val v) :: out, ?_, ?_⟩
          · show (convert_global_attributes_to_cdf rest).map _ = _
            rw [hout]
            rfl
          · intro n c2 hn
            rcases List.mem_cons.mp hn with h | h
            · exact absurd (congrArg Prod.snd h).symm (by simp)
            · exact List.mem_cons_of_mem _ (hmem n c2 h)

/-- C1 amended witness: a concrete meta mapping with a `None`-valued
global attribute persists without error, the attribute written as the
empty string; the same `None` value under a variable attribute raises. -/
theorem global_none_written_as_empty_string_witness :
    (∃ out, convert_global_attributes_to_cdf
        [("Mission_group", AttrContent.tuple2 (V := Nat) none none),
         ("Project", AttrContent.tuple2 (some (.plain 7)) none)] =
      Except.ok out ∧ ("Mission_group", CDFWritten.str "") ∈ out) ∧
    convert_variable_attributes_to_cdf "var"
        [("CATDESC", AttrContent.tuple2 (V := Nat) none none)] =
      Except.error
        "Variable var: Cannot Add vAttr: CATDESC. Value was None" := by
  constructor
  · obtain ⟨out, hout, hmem⟩ := (global_none_written_as_empty_string (V := Nat)).2.1
      [("Mission_group", AttrContent.tuple2 none none),
       ("Project", AttrContent.tuple2 (some (.plain 7)) none)]
      (by decide)
    exact ⟨out, hout, hmem "Mission_group" none (by decide)⟩
  · exact (global_none_written_as_empty_string (V := Nat)).2.2
      "var" "CATDESC" none []

/-- C3: when a prior type tag is supplied and appears in the candidate
list computed from the data, the candidates collapse to exactly that
one type; consequently re-inferring with the primary type of a first
inference returns the same primary type. -/
theorem prior_type_collapses_candidates :
    (∀ (a : ArrayData) (isArray : Bool) (t : CDFType),
      t ∈ rawCandidates a → inferCandidates a isArray (some t) = [t]) ∧
    (∀ (a : ArrayData) (isArray : Bool) (t : CDFType),
      (inferCandidates a isArray none).head? = some t →
      (inferCandidates a isArray (some t)).head? = some t) := by
  have hcollapse : ∀ (a : ArrayData) (isArray : Bool) (t : CDFType),
      t ∈ rawCandidates a → inferCandidates a isArray (some t) = [t] := by
    intro a isArray t ht
    simp only [inferCandidates, applyPrior]
    rw [if_pos ht]
  refine ⟨hcollapse, fun a isArray t hhead => ?_⟩
  have hmem : t ∈ rawCandidates a := by
    have : t ∈ inferCandidates a isArray none :=
      List.mem_of_mem_head? (by rw [hhead]; exact rfl)
    exact this
  rw [hcollapse a isArray t hmem]
  rfl

/-- C3 witness: re-inferring `[3]` with a prior tag in the candidate
list collapses to that tag, and the primary type is stable. -/
theorem prior_type_collapses_candidates_witness :
    inferCandidates (.ints [3]) false (some CDF_UINT1) = [CDF_UINT1] ∧
    (inferCandidates (.ints [3]) false (some CDF_BYTE)).head? =
      some CDF_BYTE := by
  constructor
  · exact prior_type_collapses_candidates.1 (.ints [3]) false CDF_UINT1
      (by decide)
  · exact prior_type_collapses_candidates.2 (.ints [3]) false CDF_BYTE
      (by decide)

/-- C8: the global attribute template holds exactly the names whose
rule has `required = true`, `derived = false` and which are not among
the default global attributes, each mapped to `None`; the measurement
template holds exactly the required, non-derived variable attribute
names, each mapped to `None`. -/
theorem required_template_key_sets (schema : List (String × AttrRule))
    (defaults : List String) (name : String) :
    ((∃ v, (name, v) ∈ global_attribute_template schema defaults) ↔
      (∃ r : AttrRule, (name, r) ∈ schema ∧ r.required = true ∧
        r.derived = false ∧ name ∉ defaults)) ∧
    (∀ p ∈ global_attribute_template schema defaults,
      p.2 = (none : Option String)) ∧
    ((∃ v, (name, v) ∈ measurement_attribute_template schema) ↔
      (∃ r : AttrRule, (name, r) ∈ schema ∧ r.required = true ∧
        r.derived = false)) ∧
    (∀ p ∈ measurement_attribute_template schema,
      p.2 = (none : Option String)) := by
  refine ⟨?_, ?_, ?_, ?_⟩
  · simp only [global_attribute_template, List.mem_map, List.mem_filter,
      Bool.and_eq_true, Bool.not_eq_true', decide_eq_false_iff_not]
    constructor
    · rintro ⟨v, p, ⟨hmem, ⟨hreq, hder⟩, hdef⟩, heq⟩
      have h1 : p.1 = name := congrArg Prod.fst heq
      refine ⟨p.2, ?_, hreq, hder, h1 ▸ hdef⟩
      rw [← h1]
      exact hmem
    · rintro ⟨r, hmem, hreq, hder, hdef⟩
      exact ⟨none, (name, r), ⟨hmem, ⟨hreq, hder⟩, hdef⟩, rfl⟩
  · intro p hp
    simp only [global_attribute_template, List.mem_map] at hp
    obtain ⟨q, -, heq⟩ := hp
    subst heq
    rfl
  · simp only [measurement_attribute_template, List.mem_map,
      List.mem_filter, Bool.and_eq_true, Bool.not_eq_true']
    constructor
    · rintro ⟨v, p, ⟨hmem, hreq, hder⟩, heq⟩
      have h1 : p.1 = name := congrArg Prod.fst heq
      refine ⟨p.2, ?_, hreq, hder⟩
      rw [← h1]
      exact hmem
    · rintro ⟨r, hmem, hreq, hder⟩
      exact ⟨none, (name, r), ⟨hmem, hreq, hder⟩, rfl⟩
  · intro p hp
    simp only [measurement_attribute_template, List.mem_map] at hp
    obtain ⟨q, -, heq⟩ := hp
    subst heq
    rfl

/-- C5: for float-kind data, the candidates are only the
double-precision types exactly when some nonzero element's magnitude
lies strictly outside the closed window `[3e-39, 1.7e38]`; when every
nonzero magnitude lies inside the window (endpoints included), the
single-precision types come first. -/
theorem float_candidates_window (d : List ℚ) :
    ((∃ x ∈ d, x ≠ 0 ∧ (bigFloatCutoff < |x| ∨ |x| < smallFloatCutoff)) →
      floatTypes d = [CDF_DOUBLE, CDF_REAL8]) ∧
    ((∀ x ∈ d, x ≠ 0 → smallFloatCutoff ≤ |x| ∧ |x| ≤ bigFloatCutoff) →
      floatTypes d = [CDF_FLOAT, CDF_REAL4, CDF_DOUBLE, CDF_REAL8]) := by
  have hmemabs : ∀ y, y ∈ absNonzero d ↔ ∃ x ∈ d, x ≠ 0 ∧ |x| = y := by
    intro y
    simp only [absNonzero, List.mem_map, List.mem_filter,
      decide_eq_true_eq]
    constructor
    · rintro ⟨x, ⟨hx, hne⟩, heq⟩
      exact ⟨x, hx, hne, heq⟩
    · rintro ⟨x, hx, hne, heq⟩
      exact ⟨x, ⟨hx, hne⟩, heq⟩
  constructor
  · rintro ⟨x, hx, hne, hout⟩
    have hmem : |x| ∈ absNonzero d := (hmemabs _).mpr ⟨x, hx, hne, rfl⟩
    unfold floatTypes
    rw [if_pos]
    obtain ⟨z, zs, habs⟩ : ∃ z zs, absNonzero d = z :: zs := by
      cases h : absNonzero d with
      | nil => rw [h] at hmem; exact absurd hmem (List.not_mem_nil _)
      | cons z zs => exact ⟨z, zs, rfl⟩
    refine ⟨by rw [habs]; exact Nat.succ_pos _, ?_⟩
    rcases hout with hbig | hsmall
    · left
      have hle : |x| ≤ listMax (absNonzero d) := by
        rw [habs]
        exact le_foldl_max zs z _ (habs ▸ hmem)
      exact lt_of_lt_of_le hbig hle
    · right
      have hge : listMin (absNonzero d) ≤ |x| := by
        rw [habs]
        exact foldl_min_le zs z _ (habs ▸ hmem)
      exact lt_of_le_of_lt hge hsmall
  · intro hall
    unfold floatTypes
    rw [if_neg]
    rintro ⟨hlen, hcases⟩
    obtain ⟨z, zs, habs⟩ : ∃ z zs, absNonzero d = z :: zs := by
      cases h : absNonzero d with
      | nil => rw [h] at hlen; exact absurd hlen (by decide)
      | cons z zs => exact ⟨z, zs, rfl⟩
    rcases hcases with hbig | hsmall
    · have hmem : listMax (absNonzero d) ∈ absNonzero d := by
        rw [habs]
        exact foldl_max_mem zs z
      obtain ⟨x, hx, hne, heq⟩ := (hmemabs _).mp hmem
      have := (hall x hx hne).2
      rw [heq] at this
      exact absurd hbig (not_lt.mpr this)
    · have hmem : listMin (absNonzero d) ∈ absNonzero d := by
        rw [habs]
        exact foldl_min_mem zs z
      obtain ⟨x, hx, hne, heq⟩ := (hmemabs _).mp hmem
      have := (hall x hx hne).1
      rw [heq] at this
      exact absurd hsmall (not_lt.mpr this)

/-- C5 witness: a magnitude above `1.7e38` forces the double-precision
candidates; data inside the window keeps single precision first. -/
theorem float_candidates_window_witness :
    floatTypes [(2 : ℚ) * 10 ^ 38] = [CDF_DOUBLE, CDF_REAL8] ∧
    floatTypes [(1 : ℚ), 0] = [CDF_FLOAT, CDF_REAL4, CDF_DOUBLE, CDF_REAL8] := by
  constructor
  · apply (float_candidates_window _).1
    refine ⟨2 * 10 ^ 38, by simp, by norm_num, Or.inl ?_⟩
    rw [abs_of_pos (by norm_num)]
    norm_num [bigFloatCutoff]
  · apply (float_candidates_window _).2
    intro x hx hne
    rcases List.mem_cons.mp hx with rfl | h
    · rw [abs_of_pos (by norm_num)]
      norm_num [smallFloatCutoff, bigFloatCutoff]
    · rcases List.mem_cons.mp h with rfl | h2
      · exact absurd rfl hne
      · exact absurd h2 (List.not_mem_nil _)

/-- C2 counterexample: for the nonnegative integer array `[0, 5]`, both
`CDF_INT1` and `CDF_UINT1` cover the data range, yet `CDF_UINT1` does
not appear before `CDF_INT1` in the candidate list — the signed type
comes first, refuting the claimed unsigned-first ordering. -/
theorem unsigned_before_signed_cex :
    CDF_INT1 ∈ rawCandidates (.ints [0, 5]) ∧
    CDF_UINT1 ∈ rawCandidates (.ints [0, 5]) ∧
    coversRangeB CDF_UINT1 (arrMin [0, 5]) (arrMax [0, 5]) = true ∧
    coversRangeB CDF_INT1 (arrMin [0, 5]) (arrMax [0, 5]) = true ∧
    0 ≤ arrMin [0, 5] ∧
    ¬ (rawCandidates (.ints [0, 5])).indexOf CDF_UINT1 <
        (rawCandidates (.ints [0, 5])).indexOf CDF_INT1 := by
  decide

/-- C2 amended: for integer data with `min >= 0`, the signed candidate
of each byte width appears before the unsigned candidate of the same
width whenever both are in the candidate list. -/
theorem signed_before_unsigned_same_width (d : List Int)
    (h0 : 0 ≤ arrMin d) (s u : CDFType)
    (hp : (s, u) ∈ [(CDF_BYTE, CDF_UINT1), (CDF_INT1, CDF_UINT1),
      (CDF_INT2, CDF_UINT2), (CDF_INT4, CDF_UINT4)])
    (hs : s ∈ rawCandidates (.ints d))
    (hu : u ∈ rawCandidates (.ints d)) :
    (rawCandidates (.ints d)).indexOf s <
      (rawCandidates (.ints d)).indexOf u := by
  have hru : rawCandidates (.ints d) =
      filterLadder (arrMin d) (arrMax d) ladderNonneg := by
    show intTypes _ _ = _
    unfold intTypes
    rw [if_neg (not_lt.mpr h0)]
  have hmapeq : specLadderNonneg = ladderNonneg.map Prod.fst := by rfl
  have hsub : (rawCandidates (.ints d)).Sublist specLadderNonneg := by
    rw [hru, hmapeq]
    exact (List.filter_sublist _).map _
  have hnodup : specLadderNonneg.Nodup := by decide
  apply sublist_indexOf_lt hsub hnodup hs hu
  fin_cases hp <;> decide

/-- C2 amended witness: at `[0, 5]` the signed 1-byte candidate indeed
precedes the unsigned 1-byte candidate. -/
theorem signed_before_unsigned_same_width_witness :
    (rawCandidates (.ints [0, 5])).indexOf CDF_INT1 <
      (rawCandidates (.ints [0, 5])).indexOf CDF_UINT1 :=
  signed_before_unsigned_same_width [0, 5] (by decide) CDF_INT1 CDF_UINT1
    (by decide) (by decide) (by decide)

/-- C4: for integer-kind data (values within the signed/unsigned 64-bit
range), the candidate list is exactly the fixed ladder — without the
unsigned types when `min < 0` — filtered to the types whose
representable range covers `[min, max]`, in ladder order; and no
unsigned type ever appears when `min < 0`. -/
theorem int_candidates_ladder_filter (d : List Int) (hne : d ≠ [])
    (hlo : -(2 ^ 63) ≤ arrMin d) (hhi : arrMax d < 2 ^ 64) :
    rawCandidates (.ints d) =
      (if arrMin d < 0 then specLadderNeg else specLadderNonneg).filter
        (fun t => coversRangeB t (arrMin d) (arrMax d)) ∧
    (arrMin d < 0 →
      ∀ t ∈ rawCandidates (.ints d), isUnsigned t = false) := by
  have key : ∀ ladder : List (CDFType × Int),
      (∀ tc ∈ ladder,
        keepType (arrMin d) (arrMax d) tc.2 =
          coversRangeB tc.1 (arrMin d) (arrMax d)) →
      filterLadder (arrMin d) (arrMax d) ladder =
        (ladder.map Prod.fst).filter
          (fun t => coversRangeB t (arrMin d) (arrMax d)) := by
    intro ladder hpt
    unfold filterLadder
    rw [List.filter_map]
    exact congrArg _ (List.filter_congr fun tc htc => hpt tc htc)
  constructor
  · by_cases hneg : arrMin d < 0
    · rw [if_pos hneg]
      show intTypes _ _ = _
      unfold intTypes
      rw [if_pos hneg]
      rw [show specLadderNeg = ladderNeg.map Prod.fst from rfl]
      apply key
      intro tc htc
      simp only [ladderNeg, List.mem_cons, List.not_mem_nil, or_false]
        at htc
      rcases htc with rfl | rfl | rfl | rfl | rfl | rfl | rfl | rfl | rfl <;>
        (rw [Bool.eq_iff_iff]
         simp only [keepType, coversRangeB, floatMax32, floatMax64,
           Bool.and_eq_true, Bool.or_eq_true, decide_eq_true_eq]
         omega)
    · rw [if_neg hneg]
      show intTypes _ _ = _
      unfold intTypes
      rw [if_neg hneg]
      rw [show specLadderNonneg = ladderNonneg.map Prod.fst from rfl]
      apply key
      intro tc htc
      simp only [ladderNonneg, List.mem_cons, List.not_mem_nil, or_false]
        at htc
      rcases htc with
        rfl | rfl | rfl | rfl | rfl | rfl | rfl | rfl | rfl | rfl | rfl | rfl <;>
        (rw [Bool.eq_iff_iff]
         simp only [keepType, coversRangeB, floatMax32, floatMax64,
           Bool.and_eq_true, Bool.or_eq_true, decide_eq_true_eq]
         omega)
  · intro hneg t ht
    have hru : rawCandidates (.ints d) =
        filterLadder (arrMin d) (arrMax d) ladderNeg := by
      show intTypes _ _ = _
      unfold intTypes
      rw [if_pos hneg]
    rw [hru] at ht
    have hmem : t ∈ ladderNeg.map Prod.fst :=
      ((List.filter_sublist _).map _).mem ht
    rw [show ladderNeg.map Prod.fst = specLadderNeg from rfl] at hmem
    simp only [specLadderNeg, List.mem_cons, List.not_mem_nil, or_false]
      at hmem
    rcases hmem with rfl | rfl | rfl | rfl | rfl | rfl | rfl | rfl | rfl <;>
      rfl

/-- C4 witness: the instantiation at the concrete array `[-3, 5]`. -/
theorem int_candidates_ladder_filter_witness :
    rawCandidates (.ints [-3, 5]) =
      (if arrMin [-3, 5] < 0 then specLadderNeg else specLadderNonneg).filter
        (fun t => coversRangeB t (arrMin [-3, 5]) (arrMax [-3, 5])) ∧
    (arrMin [-3, 5] < 0 →
      ∀ t ∈ rawCandidates (.ints [-3, 5]), isUnsigned t = false) :=
  int_candidates_ladder_filter [-3, 5] (by decide) (by decide) (by decide)

/-- C9 counterexample: for `CDF_UINT1` with `VALIDMIN = VALIDMAX = 0`,
the code produces `I2` while the claimed width formula
`floor(log10(max(|min|, |max|, 1))) + 1` gives `1`. -/
theorem int_format_zero_max_cex :
    get_format CDF_UINT1 (some 0) (some 0) "" = Except.ok "I2" ∧
    claimedIntWidth 0 0 = 1 ∧
    Except.ok "I2" ≠
      (Except.ok ("I" ++ toString (claimedIntWidth 0 0)) :
        Except String String) := by
  have w : claimedIntWidth 0 0 = 1 := by
    simp only [claimedIntWidth]
    rw [if_neg (by decide),
      show max (max (Int.natAbs 0) (Int.natAbs 0)) 1 = 1 from by decide,
      Nat.log_one_right]
  refine ⟨rfl, w, ?_⟩
  rw [w]
  intro h
  exact absurd (Except.ok.inj h) (by decide)

/-- C9 amended: for every integer CDF type with effective bounds
`min <= max` (from `VALIDMIN`/`VALIDMAX` when present, else the type's
representable bounds) of magnitude at most `10^15 - 3` — the domain on
which the double-precision `int(math.log10(...))` of the source
coincides with the exact floor — the format is `I` followed by
`floor(log10(max(|min|, |max|, 1))) + 1`, plus one more when `min < 0`
— except that a zero effective maximum with `min >= 0` yields width 2
(the code computes `int(1) + 1` there); for magnitudes within two of a
power of ten at or beyond `10^15` the source's double log rounds up to
one more digit than the floor formula. Character types produce `A`
followed by the string's length. -/
theorem int_format_width :
    (∀ cdftype : CDFType, cdftype ∈ intFormatTypes →
      ∀ (validmin validmax : Option Int) (s : String),
      formatMinval cdftype validmin ≤ formatMaxval cdftype validmax →
      (formatMinval cdftype validmin).natAbs ≤ 10 ^ 15 - 3 →
      (formatMaxval cdftype validmax).natAbs ≤ 10 ^ 15 - 3 →
      get_format cdftype validmin validmax s =
        Except.ok ("I" ++ toString
          (if 0 ≤ formatMinval cdftype validmin ∧
              formatMaxval cdftype validmax = 0
           then 2
           else claimedIntWidth (formatMinval cdftype validmin)
             (formatMaxval cdftype validmax)))) ∧
    (∀ (s : String) (validmin validmax : Option Int),
      get_format CDF_CHAR validmin validmax s =
        Except.ok ("A" ++ toString s.length) ∧
      get_format CDF_UCHAR validmin validmax s =
        Except.ok ("A" ++ toString s.length)) := by
  constructor
  · intro cdftype hc validmin validmax s hmm hblo hbhi
    simp only [get_format, pyIntLog10, hc, if_true]
    generalize hmn : formatMinval cdftype validmin = mn at hmm ⊢
    generalize hmx : formatMaxval cdftype validmax = mx at hmm ⊢
    by_cases hneg : mn < 0
    · rw [if_pos hneg,
        if_neg (fun h : 0 ≤ mn ∧ mx = 0 => absurd hneg (not_lt.mpr h.1))]
      simp only [claimedIntWidth, if_pos hneg]
      rw [show max (max mx.natAbs mn.natAbs) 1 =
        max (max mn.natAbs mx.natAbs) 1 from by omega]
    · rw [if_neg hneg]
      by_cases hz : mx = 0
      · rw [if_pos hz, if_pos ⟨not_lt.mp hneg, hz⟩]
      · rw [if_neg hz, if_neg (show ¬mx < 0 from by omega),
          if_neg (fun h : 0 ≤ mn ∧ mx = 0 => hz h.2)]
        simp only [claimedIntWidth, if_neg hneg]
        rw [show max (max mn.natAbs mx.natAbs) 1 = mx.toNat from by omega]
  · intro s validmin validmax
    exact ⟨rfl, rfl⟩

/-- The width the claimed formula gives when the effective minimum is
negative, split out so concrete instances can be evaluated without
reducing `Nat.log` on large ground terms. -/
theorem claimedIntWidth_of_neg (mn mx : Int) (h : mn < 0) :
    claimedIntWidth mn mx =
      Nat.log 10 (max (max mn.natAbs mx.natAbs) 1) + 2 := by
  simp only [claimedIntWidth]
  rw [if_pos h]

/-- C9 amended witness: `CDF_INT2` with no metadata bounds derives
format `I6` (five digits of 32767 plus a sign place), matching the
amended formula, and a 4-character string derives `A4`. -/
theorem int_format_width_witness :
    get_format CDF_INT2 none none "" = Except.ok "I6" ∧
    get_format CDF_CHAR none none "abcd" = Except.ok "A4" := by
  refine ⟨?_, (int_format_width.2 "abcd" none none).1⟩
  have h1 := int_format_width.1 CDF_INT2 (by decide) none none ""
    (by decide) (by decide) (by decide)
  have hlog : Nat.log 10 32768 = 4 := by
    apply Nat.log_eq_of_pow_le_of_lt_pow <;> norm_num
  have h2 : max (max (formatMinval CDF_INT2 none).natAbs
      (formatMaxval CDF_INT2 none).natAbs) 1 = 32768 := by decide
  have hneg : formatMinval CDF_INT2 none < 0 := by decide
  have w : claimedIntWidth (formatMinval CDF_INT2 none)
      (formatMaxval CDF_INT2 none) = 6 :=
    (claimedIntWidth_of_neg _ _ hneg).trans (by rw [h2, hlog])
  have hcond : ¬(0 ≤ formatMinval CDF_INT2 none ∧
      formatMaxval CDF_INT2 none = 0) := by decide
  have hval : (if 0 ≤ formatMinval CDF_INT2 none ∧
      formatMaxval CDF_INT2 none = 0
      then 2
      else claimedIntWidth (formatMinval CDF_INT2 none)
        (formatMaxval CDF_INT2 none)) = 6 :=
    (if_neg hcond).trans w
  rw [h1, hval]
  rfl

/-- C7 witness: an attribute stored as `(1, "c")` under a rule with
`overwrite = false` survives an update to `2` unchanged, through both
update functions. -/
theorem no_overwrite_keeps_first_value_witness :
    update_global_attribute (V := Nat)
      (fun n => if n = "CATDESC" then some ⟨some false⟩ else none)
      (fun n => if n = "CATDESC" then some (some 1, some "c") else none)
      "CATDESC" (some 2) none =
      (fun n => if n = "CATDESC" then some (some 1, some "c") else none) ∧
    update_measurement_attribute (V := Nat)
      (fun n => if n = "CATDESC" then some ⟨some false⟩ else none)
      (fun _ n => if n = "CATDESC" then some (some 1, some "c") else none)
      "var" "CATDESC" (some 2) none =
      (fun _ n => if n = "CATDESC" then some (some 1, some "c") else none) := by
  have h := no_overwrite_keeps_first_value (V := Nat)
    (fun n => if n = "CATDESC" then some ⟨some false⟩ else none)
    ⟨some false⟩ "CATDESC" 1 (some "c") (some 2) none (by simp) rfl
  exact ⟨h.1 _ (by simp) (by simp), h.2 _ "var" (by simp) (by simp)⟩

/-- C10 witness: an attribute absent from the schema rule table but
stored with a non-`None` value is replaced unconditionally, value and
comment both, by both update functions. -/
theorem unknown_attribute_always_overwritten_witness :
    update_global_attribute (V := Nat) (fun _ => none)
      (fun n => if n = "extra" then some (some 1, some "c") else none)
      "extra" (some 5) (some "c2") "extra" = some (some 5, some "c2") ∧
    update_measurement_attribute (V := Nat) (fun _ => none)
      (fun _ n => if n = "extra" then some (some 1, some "c") else none)
      "var" "extra" (some 5) (some "c2") "var" "extra" =
      some (some 5, some "c2") := by
  have h := unknown_attribute_always_overwritten (V := Nat) (fun _ => none)
    "extra" 1 (some "c") (some 5) (some "c2") rfl
  exact ⟨h.1 _ (by simp), h.2 _ "var" (by simp)⟩

/-- C8 witness: in a two-rule schema with one required non-derived
attribute, the templates contain exactly that attribute. -/
theorem required_template_key_sets_witness :
    (∃ v, ("A", v) ∈ global_attribute_template
      [("A", ⟨true, false⟩), ("B", ⟨true, true⟩)] ["D"]) ∧
    ¬(∃ v, ("B", v) ∈ global_attribute_template
      [("A", ⟨true, false⟩), ("B", ⟨true, true⟩)] ["D"]) ∧
    (∃ v, ("A", v) ∈ measurement_attribute_template
      [("A", ⟨true, false⟩), ("B", ⟨true, true⟩)]) := by
  refine ⟨?_, ?_, ?_⟩
  · exact (required_template_key_sets _ _ "A").1.mpr
      ⟨⟨true, false⟩, by simp, rfl, rfl, by simp⟩
  · intro hex
    obtain ⟨r, hmem, hreq, hder, -⟩ :=
      (required_template_key_sets
        [("A", ⟨true, false⟩), ("B", ⟨true, true⟩)] ["D"] "B").1.mp hex
    have hr : r = ⟨true, true⟩ := by
      rcases List.mem_cons.mp hmem with h | h
      · exact absurd (congrArg Prod.fst h) (by simp)
      · rcases List.mem_cons.mp h with h2 | h2
        · exact (Prod.ext_iff.mp h2).2
        · exact absurd h2 (List.not_mem_nil _)
    rw [hr] at hder
    simp at hder
  · exact (required_template_key_sets _ ["D"] "A").2.2.1.mpr
      ⟨⟨true, false⟩, by simp, rfl, rfl⟩

end SwxSoc
